import Mathlib

/-!
Shallow embedding of the turn-resolution core of the slack_tower_battle
repository (src/stage.rs and the session logic of src/main.rs).

Numeric model: the source computes over IEEE floats (rapier's `Real` = f32,
shape data in f64); both are modelled as the real numbers ℝ.  The external
2D physics engine (rapier) is modelled as an oracle: a function
`List Body → List Body` advancing every rigid body by one fixed step.
`rand::thread_rng().gen_range(0..len)` is modelled as an oracle index into
the shape catalog.  Rendering (canvas.rs) and Slack posting (slack.rs) are
modelled as fallible oracles, since their output bytes never feed back into
the core.
-/

open scoped Classical

noncomputable section

namespace TowerBattle

/-- Model of `Real::MAX` (f32::MAX), the initial accumulator of `Object::get_top`. -/
def realMAX : ℝ := 340282346638528859811704183484516925440

/-- Model of `f32::to_radians`: `self * (PI / 180)`. -/
def to_radians (d : ℝ) : ℝ := d * (Real.pi / 180)

/-- Model of `f32::atan2`: `y.atan2 x` is the argument of the point `(x, y)`,
modelled by the complex argument. -/
def atan2 (y x : ℝ) : ℝ := Complex.arg { re := x, im := y }

/-- One rapier rigid body, as far as the core reads or writes it:
its translation (physics-world units), its rotation as a unit complex
`(re, im)` (rapier's `UnitComplex`), and its sleep flag. -/
structure Body where
  px : ℝ
  py : ℝ
  rotRe : ℝ
  rotIm : ℝ
  sleeping : Bool

/-- Default body used for an out-of-range handle lookup (the source would
panic there; all handles produced by the model are in range). -/
def dummyBody : Body := ⟨0, 0, 1, 0, false⟩

/-- Model of `RigidBodyBuilder::dynamic().build()`: a fresh dynamic body at the
origin, identity rotation, awake. -/
def freshBody : Body := ⟨0, 0, 1, 0, false⟩

/-- Model of `stage.rs` `Object`: owner, shape outline (pixel units, object-local),
last synchronized translation (pixel units) and rotation (radians), and the
handle of its rigid body (an index into the stage's body list). -/
structure Object where
  user_id : Option String
  shape : List (ℝ × ℝ)
  translation : ℝ × ℝ
  rotation : ℝ
  rigid_body_handle : ℕ

/-- Model of `Object::get_top`: minimum y over the shape's vertices after applying
the object's rotation and translation, starting from `Real::MAX`. -/
def Object.get_top (o : Object) : ℝ :=
  o.shape.foldl
    (fun top v =>
      let y := v.1 * Real.sin o.rotation + v.2 * Real.cos o.rotation + o.translation.2
      if top > y then y else top)
    realMAX

/-- Model of `Object::get_radius`: maximum distance of a vertex from the origin. -/
def Object.get_radius (o : Object) : ℝ :=
  o.shape.foldl
    (fun radius v =>
      let r := Real.sqrt (v.1 * v.1 + v.2 * v.2)
      if r > radius then r else radius)
    0

/-- Model of `stage.rs` `Stage`: icon map, world scale, the rigid-body set (bodies
indexed by handle; the static ground is a bare collider and never enters
the rigid-body set), the object list and the shape catalog. -/
structure Stage where
  user_icons : List (String × List ℕ)
  world_scale : ℝ
  bodies : List Body
  objects : List Object
  shapes : List (List (ℝ × ℝ))

/-- Model of `stage.rs` `TurnResult`. -/
inductive TurnResult where
  | Success
  | Failure
  | Timeout
deriving DecidableEq

/-- Model of `Stage::new`: empty icon map, `world_scale = 0.01`, no bodies, no
objects; the ground collider (a static cuboid) adds no rigid body. -/
def Stage.new (shapes : List (List (ℝ × ℝ))) : Stage :=
  { user_icons := []
    world_scale := 0.01
    bodies := []
    objects := []
    shapes := shapes }

/-- Model of `Stage::reset_last_object`: if an object exists, overwrite the last
one's owner, x-translation (mapping the input from [-1,1] to [0,640] px)
and rotation (degrees to radians), then teleport its body to the absolute
transform `translation * world_scale` with that rotation (and wake it). -/
def Stage.reset_last_object (s : Stage) (user_id : Option String)
    (translation_x rotation : ℝ) : Stage :=
  match s.objects.getLast? with
  | none => s
  | some o =>
    let o' : Object :=
      { o with
        user_id := user_id
        translation := ((translation_x + 1) * 0.5 * 640, o.translation.2)
        rotation := to_radians rotation }
    let b : Body :=
      { px := o'.translation.1 * s.world_scale
        py := o'.translation.2 * s.world_scale
        rotRe := Real.cos o'.rotation
        rotIm := Real.sin o'.rotation
        sleeping := false }
    { s with
      objects := s.objects.dropLast ++ [o']
      bodies := s.bodies.set o.rigid_body_handle b }

/-- Model of `Stage::get_stage_top`: minimum over all objects of `get_top`,
starting from the 420 px ground line. -/
def Stage.get_stage_top (s : Stage) : ℝ :=
  s.objects.foldl
    (fun top o =>
      let t := o.get_top
      if top > t then t else top)
    420

/-- Model of `Stage::get_stage_height`: `(420 - get_stage_top) * world_scale`. -/
def Stage.get_stage_height (s : Stage) : ℝ :=
  (420 - s.get_stage_top) * s.world_scale

/-- Model of `Stage::add_object` with the random index supplied by the oracle
`pick`: build a fresh dynamic body, append an object owning it whose
shape is `shapes[pick]`, placed at x = 0 and y = stage top minus its
bounding radius minus 50 (the stage top is read before the append), then
re-run `reset_last_object(None, 0.0, 0.0)` on it. -/
def Stage.add_object (s : Stage) (pick : ℕ) : Stage :=
  let shape := s.shapes.getD pick []
  let handle := s.bodies.length
  let obj0 : Object :=
    { user_id := none
      shape := shape
      translation := (0, 0)
      rotation := 0
      rigid_body_handle := handle }
  let obj : Object :=
    { obj0 with translation := (0, s.get_stage_top - obj0.get_radius - 50) }
  let s' : Stage :=
    { s with
      bodies := s.bodies ++ [freshBody]
      objects := s.objects ++ [obj] }
  s'.reset_last_object none 0 0

/-- Model of `IntegrationParameters::default().dt` (one sixtieth of a second). -/
def dt : ℝ := 1 / 60

/-- The body of the convergence loop after the pipeline step: every
object's translation (divided by `world_scale`) and rotation (recovered by
`atan2` from the unit complex) are resynchronized from its body. -/
def convergenceStep (stepFn : List Body → List Body) (s : Stage) : Stage :=
  let bodies := stepFn s.bodies
  { s with
    bodies := bodies
    objects := s.objects.map (fun o =>
      let b := bodies.getD o.rigid_body_handle dummyBody
      { o with
        translation := (b.px / s.world_scale, b.py / s.world_scale)
        rotation := atan2 b.rotIm b.rotRe }) }

/-- The failure test of the convergence loop: some object's top
(times `world_scale`) exceeds `420 * world_scale`. -/
def anyFallen (s : Stage) : Prop :=
  ∃ o ∈ s.objects, o.get_top * s.world_scale > 420 * s.world_scale

/-- The success test of the convergence loop: every object's body is
sleeping (vacuously true with no objects). -/
def allSleeping (s : Stage) : Prop :=
  ∀ o ∈ s.objects, (s.bodies.getD o.rigid_body_handle dummyBody).sleeping = true

/-- The fuel-indexed convergence loop of `continue_until_convergence`:
step the physics, resynchronize, return Failure if any object fell past
the 420 px line, else Success if all bodies sleep, else keep stepping;
Timeout when the fuel runs out. -/
def convergenceLoop (stepFn : List Body → List Body) :
    ℕ → Stage → TurnResult × Stage
  | 0, s => (.Timeout, s)
  | n + 1, s =>
    let s' := convergenceStep stepFn s
    if anyFallen s' then (.Failure, s')
    else if allSleeping s' then (.Success, s')
    else convergenceLoop stepFn n s'

/-- Model of `timeout_frame = (timeout_sec / dt).floor() as u64`. -/
def timeoutFrame (timeout_sec : ℝ) : ℕ := ⌊timeout_sec / dt⌋.toNat

/-- Model of `Stage::continue_until_convergence`, also returning the mutated
stage. -/
def Stage.continue_until_convergence (s : Stage)
    (stepFn : List Body → List Body) (timeout_sec : ℝ) : TurnResult × Stage :=
  convergenceLoop stepFn (timeoutFrame timeout_sec) s

/-- Model of `Stage::next_turn`: reset the pending object from the player input,
run to convergence, read the stage height, append a new pending object on
Success, then render; a render failure makes the call return the error
while the stage keeps all mutations made so far. -/
def Stage.next_turn (s : Stage) (stepFn : List Body → List Body) (pick : ℕ)
    (render : Stage → Except Unit (List ℕ)) (user_id : Option String)
    (translation_x rotation : ℝ) :
    Except Unit (TurnResult × ℝ × List ℕ) × Stage :=
  let s1 := s.reset_last_object user_id translation_x rotation
  let r2 := s1.continue_until_convergence stepFn 60
  let turn_result := r2.1
  let s2 := r2.2
  let height := s2.get_stage_height
  let s3 := if turn_result = .Success then s2.add_object pick else s2
  match render s3 with
  | .ok data => (.ok (turn_result, height, data), s3)
  | .error e => (.error e, s3)

/-! ### Session layer (src/main.rs `compute_turn`)

String handling mirrors the Rust: strip a leading `<@[0-9A-Z]+>` mention,
split on whitespace skipping empty tokens (`str::split_whitespace`), trim
each token and parse it as a number.  `f64::from_str` is modelled as an
oracle `parseF : String → Option ℝ`; Slack delivery and the per-session
`tokio::sync::Mutex::try_lock` are modelled as oracles as well. -/

/-- A character matched by the mention regex class `[0-9A-Z]`. -/
def isMentionChar (c : Char) : Bool :=
  (('0' ≤ c ∧ c ≤ '9') ∨ ('A' ≤ c ∧ c ≤ 'Z') : Prop)

/-- Model of `Regex::new(r"^<@[0-9A-Z]+>").replace(text, "")`: drop one leading
mention if present, otherwise leave the text unchanged. -/
def stripMention (s : String) : String :=
  match s.toList with
  | '<' :: '@' :: rest =>
    let idPart := rest.takeWhile isMentionChar
    if idPart.isEmpty then s
    else
      match rest.dropWhile isMentionChar with
      | '>' :: tail => String.mk tail
      | _ => s
  | _ => s

/-- Model of `str::split_whitespace` on a character list with an accumulator for
the word currently being read (in reverse): maximal runs of
non-whitespace characters, empty runs skipped. -/
def splitWsAux : List Char → List Char → List (List Char)
  | [], acc => if acc.isEmpty then [] else [acc.reverse]
  | c :: cs, acc =>
    if c.isWhitespace then
      if acc.isEmpty then splitWsAux cs []
      else acc.reverse :: splitWsAux cs []
    else splitWsAux cs (c :: acc)

/-- Model of `str::split_whitespace`, producing strings. -/
def splitWhitespaceR (s : String) : List String :=
  (splitWsAux s.toList []).map String.mk

/-- Model of `str::trim`: drop whitespace from both ends. -/
def trimR (s : String) : String :=
  String.mk (((s.toList.dropWhile Char.isWhitespace).reverse.dropWhile
    Char.isWhitespace).reverse)

/-- One inbound Slack message as seen by `compute_turn`. -/
structure Message where
  event_type : String
  user_id : String
  channel_id : String
  text : String

/-- Model of `main.rs` `ChannelStage`: per-channel last-activity time (abstract
clock), channel id, optional running stage. -/
structure ChannelStage where
  update_time : ℤ
  channel_id : String
  stage : Option Stage

/-- What gets posted back to Slack.  The formatted caption of a result
image is abstracted to its data (owner, turn result, height); the welcome
and plain-text messages keep their literal text. -/
inductive Post where
  | message (channel text : String)
  | resultImage (channel user_id : String) (result : TurnResult) (height : ℝ)
  | welcomeImage (channel : String)

/-- The environment of one `compute_turn` call: the `try_lock` outcome,
the user-info fetch, number parsing, the physics step, the shape pick,
the renderer, whether the single Slack post of the call succeeds, and the
current time. -/
structure TurnOracles where
  tryLock : Bool
  iconFetch : Except Unit (Option (List ℕ))
  parseF : String → Option ℝ
  stepFn : List Body → List Body
  pick : ℕ
  render : Stage → Except Unit (List ℕ)
  postOk : Bool
  now : ℤ

/-- The observable outcome of one `compute_turn` call: the channel state
after the call, the posts delivered, whether `Stage::next_turn` ran
(ghost flag for the simulation having been invoked), and whether the call
returned `Ok` or an error. -/
structure TurnEffects where
  state : ChannelStage
  posts : List Post
  simulated : Bool
  result : Except Unit Unit

/-- The contention reply of `compute_turn` when `try_lock` fails. -/
def contentionText (user_id : String) : String :=
  "<@" ++ user_id ++ "> 現在計算中です。\n結果が投稿された後に再度お試しください。"

/-- The invalid-input reply of `compute_turn`. -/
def invalidText : String := "無効な入力です。"

/-- The icon-registration step at the head of the stage-present path of
`compute_turn`: if the requester's icon is unknown, fetch the user info
(a failed fetch aborts the turn) and insert the icon when one is
returned. -/
def iconStep (o : TurnOracles) (msg : Message) (st : Stage) :
    Except Unit Stage :=
  if st.user_icons.any (fun p => p.1 = msg.user_id) then .ok st
  else
    match o.iconFetch with
    | .error e => .error e
    | .ok none => .ok st
    | .ok (some icon) =>
      .ok { st with user_icons := st.user_icons ++ [(msg.user_id, icon)] }

/-- The "無効な入力です。" reply path of `compute_turn` (the source has two
textually identical blocks, for wrong arity and for failed parsing). -/
def invalidEffects (o : TurnOracles) (msg : Message) (cs : ChannelStage)
    (st : Stage) : TurnEffects :=
  if o.postOk then
    ⟨{ cs with stage := some st },
      [.message msg.channel_id invalidText], false, .ok ()⟩
  else ⟨{ cs with stage := some st }, [], false, .error ()⟩

/-- The simulation-and-report tail of `compute_turn`: run `next_turn`,
and if it returned Ok, post the result image and clear the stage unless
the result was Success; a `next_turn` error is silently swallowed by the
`if let Ok` (but `update_time` is still refreshed). -/
def runPath (o : TurnOracles) (msg : Message) (cs : ChannelStage)
    (st : Stage) (translation_x rotation : ℝ) : TurnEffects :=
  match (st.next_turn o.stepFn o.pick o.render
      (some msg.user_id) translation_x rotation).1 with
  | .error _ =>
    ⟨{ cs with
        stage := some (st.next_turn o.stepFn o.pick o.render
          (some msg.user_id) translation_x rotation).2
        update_time := o.now }, [], true, .ok ()⟩
  | .ok (turn_result, height, _) =>
    if o.postOk then
      ⟨{ cs with
          stage := if turn_result = .Success then
              some (st.next_turn o.stepFn o.pick o.render
                (some msg.user_id) translation_x rotation).2
            else none
          update_time := o.now },
        [.resultImage cs.channel_id msg.user_id turn_result height],
        true, .ok ()⟩
    else
      ⟨{ cs with
          stage := some (st.next_turn o.stepFn o.pick o.render
            (some msg.user_id) translation_x rotation).2 },
        [], true, .error ()⟩

/-- The message-parsing part of the stage-present path of `compute_turn`:
require exactly two whitespace-separated tokens, each parsing as a
number, otherwise reply with the invalid-input text. -/
def parsePath (o : TurnOracles) (msg : Message) (cs : ChannelStage)
    (st : Stage) : TurnEffects :=
  if (splitWhitespaceR (stripMention msg.text)).length ≠ 2 then
    invalidEffects o msg cs st
  else
    match o.parseF (trimR ((splitWhitespaceR (stripMention msg.text)).getD 0 "")),
        o.parseF (trimR ((splitWhitespaceR (stripMention msg.text)).getD 1 "")) with
    | some translation_x, some rotation =>
      runPath o msg cs st translation_x rotation
    | _, _ => invalidEffects o msg cs st

/-- The stage-present path of `compute_turn`: icon registration (a failed
fetch aborts the turn with the state untouched), then parsing. -/
def stagePath (o : TurnOracles) (msg : Message) (cs : ChannelStage)
    (st : Stage) : TurnEffects :=
  match iconStep o msg st with
  | .error e => ⟨cs, [], false, .error e⟩
  | .ok st => parsePath o msg cs st

/-- The no-stage path of `compute_turn`: bootstrap a fresh stage with
`next_turn(None, 0, 0)` — the message text is never parsed here — and
post the welcome image. -/
def noStagePath (shapes : List (List (ℝ × ℝ))) (o : TurnOracles)
    (msg : Message) (cs : ChannelStage) : TurnEffects :=
  match ((Stage.new shapes).next_turn o.stepFn o.pick o.render none 0 0).1 with
  | .error e => ⟨cs, [], true, .error e⟩
  | .ok _ =>
    if o.postOk then
      ⟨{ cs with
          stage := some ((Stage.new shapes).next_turn o.stepFn o.pick
            o.render none 0 0).2
          update_time := o.now },
        [.welcomeImage msg.channel_id], true, .ok ()⟩
    else
      ⟨{ cs with
          stage := some ((Stage.new shapes).next_turn o.stepFn o.pick
            o.render none 0 0).2 },
        [], true, .error ()⟩

/-- Model of `main.rs` `compute_turn`, one call.  Mirrors the control flow: ignore
non-mentions; on lock contention post the contention text and leave the
state untouched; with a stage present run `stagePath`; with no stage run
the `noStagePath` bootstrap.  `update_time` is refreshed only on the
paths that reach the end of the lock-held block. -/
def compute_turn (shapes : List (List (ℝ × ℝ))) (o : TurnOracles)
    (msg : Message) (cs : ChannelStage) : TurnEffects :=
  if msg.event_type ≠ "app_mention" then ⟨cs, [], false, .ok ()⟩
  else if o.tryLock then
    match cs.stage with
    | some st => stagePath o msg cs st
    | none => noStagePath shapes o msg cs
  else
    if o.postOk then
      ⟨cs, [.message msg.channel_id (contentionText msg.user_id)], false, .ok ()⟩
    else ⟨cs, [], false, .error ()⟩

/-! ### The convergence loop as an iterated step with a decision -/

/-- The per-step decision of the convergence loop, in the order the source
checks it: Failure first, then Success, else undecided. -/
def stepDecision (s : Stage) : Option TurnResult :=
  if anyFallen s then some .Failure
  else if allSleeping s then some .Success
  else none

/-- The stage after `k` physics steps with resynchronization. -/
def iterate (stepFn : List Body → List Body) : ℕ → Stage → Stage
  | 0, s => s
  | n + 1, s => iterate stepFn n (convergenceStep stepFn s)

/-- A diamond shape with all four vertices at distance 5 from the
center. -/
def diamond : List (ℝ × ℝ) := [(0, -5), (5, 0), (0, 5), (-5, 0)]

/-- One concrete object carrying the diamond shape. -/
def objW : Object :=
  { user_id := none
    shape := diamond
    translation := (320, 100)
    rotation := 0
    rigid_body_handle := 0 }

/-- One concrete stage holding `objW` and its body. -/
def stageW : Stage :=
  { user_icons := []
    world_scale := 0.01
    bodies := [freshBody]
    objects := [objW]
    shapes := [diamond] }

/-- A physics oracle that parks the single body asleep at y = 4.4 world
units (440 px), past the 420 px ground line. -/
def stepFnFall : List Body → List Body :=
  fun _ => [⟨3.2, 4.4, 1, 0, true⟩]

/-- The turn result and converged stage of a `next_turn` call, before the
Success bookkeeping. -/
def nextTurnResultState (s : Stage) (stepFn : List Body → List Body)
    (uid : Option String) (tx rot : ℝ) : TurnResult × Stage :=
  (s.reset_last_object uid tx rot).continue_until_convergence stepFn 60

/-- The stage a `next_turn` call hands to the renderer and returns. -/
def nextTurnState (s : Stage) (stepFn : List Body → List Body) (pick : ℕ)
    (uid : Option String) (tx rot : ℝ) : Stage :=
  if (nextTurnResultState s stepFn uid tx rot).1 = .Success
  then (nextTurnResultState s stepFn uid tx rot).2.add_object pick
  else (nextTurnResultState s stepFn uid tx rot).2

/-- The stage left behind by the bootstrap call
`Stage::new(shapes).next_turn(None, 0, 0)`. -/
def bootstrapState (shapes : List (List (ℝ × ℝ)))
    (stepFn : List Body → List Body) (pick : ℕ) : Stage :=
  (convergenceStep stepFn ((Stage.new shapes).reset_last_object none 0 0)).add_object pick

/-- The single pending object of the bootstrap state, written out. -/
def bootstrapPending (shapes : List (List (ℝ × ℝ)))
    (stepFn : List Body → List Body) (pick : ℕ) : Object :=
  { user_id := none
    shape := shapes.getD pick []
    translation := ((0 + 1) * 0.5 * 640,
      420 - (Object.mk none (shapes.getD pick []) (0, 0) 0
        (stepFn []).length).get_radius - 50)
    rotation := to_radians 0
    rigid_body_handle := (stepFn []).length }

/-- A physics oracle returning the empty body list. -/
def stepNil : List Body → List Body := fun _ => []

/-- A renderer that always succeeds with empty bytes. -/
def renderOkNil : Stage → Except Unit (List ℕ) := fun _ => .ok []

/-- A renderer that always fails. -/
def renderFail : Stage → Except Unit (List ℕ) := fun _ => .error ()

/-- The object `add_object` leaves pending, written out: unowned, carrying
the picked shape, centered at x = 320 px with zero rotation, 50 px plus
its bounding radius above the pre-append stage top. -/
def addedObject (s : Stage) (pick : ℕ) : Object :=
  { user_id := none
    shape := s.shapes.getD pick []
    translation := ((0 + 1) * 0.5 * 640,
      s.get_stage_top -
        (Object.mk none (s.shapes.getD pick []) (0, 0) 0 s.bodies.length).get_radius
        - 50)
    rotation := to_radians 0
    rigid_body_handle := s.bodies.length }

/-- The body state `add_object` teleports the new pending object's body
to. -/
def addedBody (s : Stage) (pick : ℕ) : Body :=
  { px := (addedObject s pick).translation.1 * s.world_scale
    py := (addedObject s pick).translation.2 * s.world_scale
    rotRe := Real.cos (to_radians 0)
    rotIm := Real.sin (to_radians 0)
    sleeping := false }

/-- A mention whose text is a single malformed token. -/
def msgAbc : Message := ⟨"app_mention", "u1", "c1", "abc"⟩

/-- A mention carrying a well-formed turn command. -/
def msgZero : Message := ⟨"app_mention", "u1", "c1", "0 0"⟩

/-- A number parser accepting only the token "0". -/
def parseZero : String → Option ℝ := fun s => if s = "0" then some 0 else none

/-- A number parser rejecting everything. -/
def parseNone : String → Option ℝ := fun _ => none

/-- Oracles for a bootstrap run: lock free, no icon, simulation trivial. -/
def oracleBoot : TurnOracles :=
  ⟨true, .ok none, parseNone, stepNil, 0, renderOkNil, true, 1⟩

/-- Oracles delivering an icon for an unknown user. -/
def oracleIcon : TurnOracles :=
  ⟨true, .ok (some [7]), parseNone, stepNil, 0, renderOkNil, true, 1⟩

/-- Oracles whose physics drops the single body past the ground line. -/
def oracleFall : TurnOracles :=
  ⟨true, .ok none, parseZero, stepFnFall, 0, renderOkNil, true, 5⟩

/-- A session that has not started a game yet. -/
def csNone : ChannelStage := ⟨0, "c1", none⟩

/-- A session holding `stageW`. -/
def csW : ChannelStage := ⟨0, "c1", some stageW⟩

/-- The stage `stageW` with the requester's icon already registered. -/
def stageWicons : Stage :=
  { user_icons := [("u1", [7])]
    world_scale := 0.01
    bodies := [freshBody]
    objects := [objW]
    shapes := [diamond] }

/-- A session holding `stageWicons`. -/
def csIcons : ChannelStage := ⟨0, "c1", some stageWicons⟩

/-- A mention with two tokens neither of which parses as a number. -/
def msgXY : Message := ⟨"app_mention", "u1", "c1", "x y"⟩

/-- The single object of a one-object stage after a `stepFnFall` physics
step and resynchronization. -/
def fallenObject (s : Stage) (o : Object) : Object :=
  { o with
    translation := (3.2 / s.world_scale, 4.4 / s.world_scale)
    rotation := atan2 0 1 }

/-- The pending object of `stageWicons` after `reset_last_object` with
owner "u1" and neutral input. -/
def objW2 : Object :=
  { objW with
    user_id := some "u1"
    translation := ((0 + 1) * 0.5 * 640, objW.translation.2)
    rotation := to_radians 0 }

/-- The phases of one turn attempt: before `try_lock`, holding the lock
(the turn body runs at the `holding → done` step), finished. -/
inductive Phase where
  | start
  | holding
  | done
deriving DecidableEq

/-- One attempt's bookkeeping: its phase, whether its simulation body
ran, and what it posted. -/
structure AttemptState where
  phase : Phase
  ranSim : Bool
  posts : List Post

/-- The shared per-session state: the mutex flag and the channel state. -/
structure SysState where
  locked : Bool
  cs : ChannelStage
  attA : AttemptState
  attB : AttemptState

/-- One atomic action of an attempt: a failed `try_lock` posts the
contention reply and finishes without touching the session; a successful
one takes the lock; the lock-held step runs the body, releases and
finishes. -/
def attemptAct (body : ChannelStage → ChannelStage × List Post)
    (contention : Post) (locked : Bool) (cs : ChannelStage)
    (a : AttemptState) : Bool × ChannelStage × AttemptState :=
  match a.phase with
  | .start =>
    if locked then (locked, cs, { a with phase := .done, posts := [contention] })
    else (true, cs, { a with phase := .holding })
  | .holding =>
    (false, (body cs).1,
      { a with phase := .done, ranSim := true, posts := (body cs).2 })
  | .done => (locked, cs, a)

/-- One scheduler step: `false` runs attempt A, `true` runs attempt B. -/
def sysStep (bodyA bodyB : ChannelStage → ChannelStage × List Post)
    (contA contB : Post) (σ : SysState) (choice : Bool) : SysState :=
  if choice then
    { σ with
      locked := (attemptAct bodyB contB σ.locked σ.cs σ.attB).1
      cs := (attemptAct bodyB contB σ.locked σ.cs σ.attB).2.1
      attB := (attemptAct bodyB contB σ.locked σ.cs σ.attB).2.2 }
  else
    { σ with
      locked := (attemptAct bodyA contA σ.locked σ.cs σ.attA).1
      cs := (attemptAct bodyA contA σ.locked σ.cs σ.attA).2.1
      attA := (attemptAct bodyA contA σ.locked σ.cs σ.attA).2.2 }

/-- Run a whole schedule. -/
def sysRun (bodyA bodyB : ChannelStage → ChannelStage × List Post)
    (contA contB : Post) (sched : List Bool) (σ : SysState) : SysState :=
  sched.foldl (sysStep bodyA bodyB contA contB) σ

/-- The mutual-exclusion invariant: a holding attempt implies the flag is
set and the other attempt is not holding. -/
def sysInv (σ : SysState) : Prop :=
  (σ.attA.phase = .holding → σ.locked = true ∧ σ.attB.phase ≠ .holding) ∧
  (σ.attB.phase = .holding → σ.locked = true ∧ σ.attA.phase ≠ .holding)

/-- Both attempts pending, lock free. -/
def sysInit (cs : ChannelStage) : SysState :=
  ⟨false, cs, ⟨.start, false, []⟩, ⟨.start, false, []⟩⟩

/-- Oracles for a contended call: the `try_lock` fails. -/
def oracleLocked : TurnOracles :=
  ⟨false, .ok none, parseNone, stepNil, 0, renderOkNil, true, 1⟩

theorem convergenceLoop_succ (stepFn : List Body → List Body) (n : ℕ)
    (s : Stage) :
    convergenceLoop stepFn (n + 1) s =
      match stepDecision (convergenceStep stepFn s) with
      | some r => (r, convergenceStep stepFn s)
      | none => convergenceLoop stepFn n (convergenceStep stepFn s) := by
  by_cases hf : anyFallen (convergenceStep stepFn s)
  · simp [convergenceLoop, stepDecision, hf]
  · by_cases hs : allSleeping (convergenceStep stepFn s)
    · simp [convergenceLoop, stepDecision, hf, hs]
    · simp [convergenceLoop, stepDecision, hf, hs]

theorem convergenceLoop_state (stepFn : List Body → List Body) :
    ∀ (n : ℕ) (s : Stage),
      ∃ k ≤ n, (convergenceLoop stepFn n s).2 = iterate stepFn k s := by
  intro n
  induction n with
  | zero => intro s; exact ⟨0, le_refl 0, rfl⟩
  | succ n ih =>
    intro s
    rw [convergenceLoop_succ]
    cases hd : stepDecision (convergenceStep stepFn s) with
    | some r => exact ⟨1, by omega, rfl⟩
    | none =>
      obtain ⟨k, hk, he⟩ := ih (convergenceStep stepFn s)
      exact ⟨k + 1, by omega, he⟩

theorem convergenceLoop_timeout_iff (stepFn : List Body → List Body) :
    ∀ (n : ℕ) (s : Stage),
      (convergenceLoop stepFn n s).1 = .Timeout ↔
        ∀ k < n, stepDecision (iterate stepFn (k + 1) s) = none := by
  intro n
  induction n with
  | zero => intro s; simp [convergenceLoop]
  | succ n ih =>
    intro s
    rw [convergenceLoop_succ]
    cases hd : stepDecision (convergenceStep stepFn s) with
    | some r =>
      have hr : r ≠ TurnResult.Timeout := by
        unfold stepDecision at hd
        by_cases hf : anyFallen (convergenceStep stepFn s)
        · simp [hf] at hd; simp [← hd]
        · by_cases hs : allSleeping (convergenceStep stepFn s)
          · simp [hf, hs] at hd; simp [← hd]
          · simp [hf, hs] at hd
      simp only [hr]
      constructor
      · intro h; exact h.elim
      · intro h
        have h0 := h 0 (by omega)
        simp [iterate, hd] at h0
    | none =>
      rw [ih (convergenceStep stepFn s)]
      constructor
      · intro h k hk
        cases k with
        | zero => simpa [iterate] using hd
        | succ j => exact h j (by omega)
      · intro h k hk
        have := h (k + 1) (by omega)
        simpa [iterate] using this

/-- C2: for any physics oracle and any stage, `continue_until_convergence`
with the 60-second budget performs at most `⌊60 / dt⌋` physics steps and
returns exactly one of Success, Failure or Timeout; the result is Timeout
exactly when no step within the budget decided Failure or Success. -/
theorem spec_c2_convergence_exhaustive (stepFn : List Body → List Body)
    (s : Stage) :
    ((s.continue_until_convergence stepFn 60).1 = .Success ∨
      (s.continue_until_convergence stepFn 60).1 = .Failure ∨
      (s.continue_until_convergence stepFn 60).1 = .Timeout) ∧
    (∃ k ≤ timeoutFrame 60,
      (s.continue_until_convergence stepFn 60).2 = iterate stepFn k s) ∧
    ((s.continue_until_convergence stepFn 60).1 = .Timeout ↔
      ∀ k < timeoutFrame 60, stepDecision (iterate stepFn (k + 1) s) = none) := by
  refine ⟨?_, ?_, ?_⟩
  · cases (s.continue_until_convergence stepFn 60).1 with
    | Success => left; rfl
    | Failure => right; left; rfl
    | Timeout => right; right; rfl
  · exact convergenceLoop_state stepFn (timeoutFrame 60) s
  · exact convergenceLoop_timeout_iff stepFn (timeoutFrame 60) s

/-! ### Concrete fixtures for witnesses and counterexamples -/

theorem atan2_zero_one : atan2 0 1 = 0 := by
  have h : ({ re := 1, im := 0 } : ℂ) = 1 := by
    apply Complex.ext <;> simp
  rw [atan2, h, Complex.arg_one]

theorem sqrt_twentyfive : Real.sqrt 25 = 5 := by
  rw [show (25 : ℝ) = 5 ^ 2 by norm_num,
    Real.sqrt_sq (by norm_num : (0 : ℝ) ≤ 5)]

/-- The top of an unrotated diamond-shaped object is 5 px above its
translation (bounded translation keeps `Real::MAX` out of the fold). -/
theorem get_top_diamond (o : Object) (hs : o.shape = diamond)
    (hr : o.rotation = 0) (ht : o.translation.2 < 1000000) :
    o.get_top = o.translation.2 - 5 := by
  have hM : (1000000 : ℝ) ≤ realMAX := by unfold realMAX; norm_num
  unfold Object.get_top
  rw [hs, hr]
  simp only [diamond, List.foldl_cons, List.foldl_nil, Real.sin_zero,
    Real.cos_zero, mul_zero, mul_one, zero_mul, zero_add, add_zero, neg_mul]
  split_ifs <;> linarith

/-- The bounding radius of a diamond-shaped object is 5. -/
theorem get_radius_diamond (o : Object) (hs : o.shape = diamond) :
    o.get_radius = 5 := by
  unfold Object.get_radius
  rw [hs]
  norm_num [diamond, List.foldl_cons, List.foldl_nil, sqrt_twentyfive]

/-- C1: after each physics step the loop resynchronizes every object's
translation and rotation from its body, then decides in order: Failure if
any object's top passed the 420 px line (checked over every object, and
taking precedence over Success), else Success if every body sleeps (which
holds vacuously with zero objects), else it keeps stepping. -/
theorem spec_c1_outcome_order (stepFn : List Body → List Body) (s : Stage)
    (n : ℕ) :
    (∀ o ∈ (convergenceStep stepFn s).objects,
      o.translation =
        (((stepFn s.bodies).getD o.rigid_body_handle dummyBody).px / s.world_scale,
          ((stepFn s.bodies).getD o.rigid_body_handle dummyBody).py / s.world_scale) ∧
      o.rotation =
        atan2 ((stepFn s.bodies).getD o.rigid_body_handle dummyBody).rotIm
          ((stepFn s.bodies).getD o.rigid_body_handle dummyBody).rotRe) ∧
    (anyFallen (convergenceStep stepFn s) →
      convergenceLoop stepFn (n + 1) s = (.Failure, convergenceStep stepFn s)) ∧
    (¬ anyFallen (convergenceStep stepFn s) →
      allSleeping (convergenceStep stepFn s) →
      convergenceLoop stepFn (n + 1) s = (.Success, convergenceStep stepFn s)) ∧
    (¬ anyFallen (convergenceStep stepFn s) →
      ¬ allSleeping (convergenceStep stepFn s) →
      convergenceLoop stepFn (n + 1) s =
        convergenceLoop stepFn n (convergenceStep stepFn s)) ∧
    ((convergenceStep stepFn s).objects = [] →
      convergenceLoop stepFn (n + 1) s = (.Success, convergenceStep stepFn s)) ∧
    (anyFallen (convergenceStep stepFn s) ↔
      ∃ o ∈ (convergenceStep stepFn s).objects,
        o.get_top * s.world_scale > 420 * s.world_scale) := by
  refine ⟨?_, ?_, ?_, ?_, ?_, ?_⟩
  · intro o ho
    simp only [convergenceStep, List.mem_map] at ho
    obtain ⟨o₀, _, rfl⟩ := ho
    exact ⟨rfl, rfl⟩
  · intro h
    simp [convergenceLoop, h]
  · intro hf hs
    simp [convergenceLoop, hf, hs]
  · intro hf hs
    simp [convergenceLoop, hf, hs]
  · intro he
    have hf : ¬ anyFallen (convergenceStep stepFn s) := by
      simp [anyFallen, he]
    have hs : allSleeping (convergenceStep stepFn s) := by
      simp [allSleeping, he]
    simp [convergenceLoop, hf, hs]
  · exact Iff.rfl

/-- Witness for C1: in the concrete fallen-and-asleep scenario the loop
returns Failure even though every body sleeps — the Failure check comes
first. -/
theorem spec_c1_outcome_order_witness :
    convergenceLoop stepFnFall 3600 stageW =
      (.Failure, convergenceStep stepFnFall stageW) ∧
    allSleeping (convergenceStep stepFnFall stageW) := by
  have hsleep : allSleeping (convergenceStep stepFnFall stageW) := by
    intro o ho
    simp only [convergenceStep, stepFnFall, stageW, objW, List.mem_map,
      List.mem_singleton] at ho
    obtain ⟨o₀, h₀, rfl⟩ := ho
    subst h₀
    rfl
  have hfall : anyFallen (convergenceStep stepFnFall stageW) := by
    refine ⟨?_, ?_, ?_⟩
    · exact ((convergenceStep stepFnFall stageW).objects.getD 0 objW)
    · simp [convergenceStep, stepFnFall, stageW, objW]
    · have hsh :
        ((convergenceStep stepFnFall stageW).objects.getD 0 objW).shape = diamond := by
        simp [convergenceStep, stepFnFall, stageW, objW]
      have hrot :
        ((convergenceStep stepFnFall stageW).objects.getD 0 objW).rotation = 0 := by
        simp [convergenceStep, stepFnFall, stageW, objW, atan2_zero_one]
      have htr :
        ((convergenceStep stepFnFall stageW).objects.getD 0 objW).translation.2 = 440 := by
        simp [convergenceStep, stepFnFall, stageW, objW]
        norm_num
      have := get_top_diamond _ hsh hrot (by rw [htr]; norm_num)
      rw [this, htr]
      have hws : (convergenceStep stepFnFall stageW).world_scale = 0.01 := rfl
      rw [hws]
      norm_num
  have h := spec_c1_outcome_order stepFnFall stageW 3599
  exact ⟨h.2.1 hfall, hsleep⟩

/-! ### Bounds on the folds of `get_top`, `get_radius`, `get_stage_top` -/

theorem foldl_min_le_init (g : ℝ × ℝ → ℝ) :
    ∀ (l : List (ℝ × ℝ)) (init : ℝ),
      l.foldl (fun top v => if top > g v then g v else top) init ≤ init := by
  intro l
  induction l with
  | nil => intro init; simp
  | cons c cs ih =>
    intro init
    simp only [List.foldl_cons]
    by_cases h : init > g c
    · rw [if_pos h]; exact le_trans (ih _) (le_of_lt h)
    · rw [if_neg h]; exact ih _

theorem foldl_min_le_mem (g : ℝ × ℝ → ℝ) :
    ∀ (l : List (ℝ × ℝ)) (init : ℝ) (v : ℝ × ℝ), v ∈ l →
      l.foldl (fun top v => if top > g v then g v else top) init ≤ g v := by
  intro l
  induction l with
  | nil => intro init v hv; cases hv
  | cons c cs ih =>
    intro init v hv
    rcases List.mem_cons.mp hv with rfl | hv'
    · simp only [List.foldl_cons]
      by_cases h : init > g v
      · rw [if_pos h]; exact foldl_min_le_init g cs (g v)
      · rw [if_neg h]; exact le_trans (foldl_min_le_init g cs init) (not_lt.mp h)
    · simp only [List.foldl_cons]
      split_ifs <;> exact ih _ v hv'

theorem le_foldl_max_init (g : ℝ × ℝ → ℝ) :
    ∀ (l : List (ℝ × ℝ)) (init : ℝ),
      init ≤ l.foldl (fun r v => if g v > r then g v else r) init := by
  intro l
  induction l with
  | nil => intro init; simp
  | cons c cs ih =>
    intro init
    simp only [List.foldl_cons]
    by_cases h : g c > init
    · rw [if_pos h]; exact le_trans (le_of_lt h) (ih _)
    · rw [if_neg h]; exact ih _

theorem le_foldl_max_mem (g : ℝ × ℝ → ℝ) :
    ∀ (l : List (ℝ × ℝ)) (init : ℝ) (v : ℝ × ℝ), v ∈ l →
      g v ≤ l.foldl (fun r v => if g v > r then g v else r) init := by
  intro l
  induction l with
  | nil => intro init v hv; cases hv
  | cons c cs ih =>
    intro init v hv
    rcases List.mem_cons.mp hv with rfl | hv'
    · simp only [List.foldl_cons]
      by_cases h : g v > init
      · rw [if_pos h]; exact le_foldl_max_init g cs (g v)
      · rw [if_neg h]; exact le_trans (not_lt.mp h) (le_foldl_max_init g cs init)
    · simp only [List.foldl_cons]
      split_ifs <;> exact ih _ v hv'

/-- The bounding radius dominates the |y| of every vertex. -/
theorem get_radius_ge_abs_y (o : Object) (v : ℝ × ℝ) (hv : v ∈ o.shape) :
    |v.2| ≤ o.get_radius := by
  unfold Object.get_radius
  refine le_trans ?_
    (le_foldl_max_mem (fun v => Real.sqrt (v.1 * v.1 + v.2 * v.2)) o.shape 0 v hv)
  rw [← Real.sqrt_mul_self_eq_abs]
  exact Real.sqrt_le_sqrt (by nlinarith)

/-- With zero rotation, the top is at most any vertex's y plus the
translation's y. -/
theorem get_top_le_vertex (o : Object) (hr : o.rotation = 0) (v : ℝ × ℝ)
    (hv : v ∈ o.shape) : o.get_top ≤ v.2 + o.translation.2 := by
  unfold Object.get_top
  have h := foldl_min_le_mem
    (fun v => v.1 * Real.sin o.rotation + v.2 * Real.cos o.rotation + o.translation.2)
    o.shape realMAX v hv
  refine le_trans h (le_of_eq ?_)
  rw [hr]
  simp

/-- Helper: `get_radius` only reads the shape. -/
theorem get_radius_congr (o o' : Object) (h : o.shape = o'.shape) :
    o.get_radius = o'.get_radius := by
  unfold Object.get_radius; rw [h]

/-! ### The bootstrap run of `next_turn` on an empty stage -/

theorem timeoutFrame_60 : timeoutFrame 60 = 3600 := by
  unfold timeoutFrame dt
  norm_num
  rfl

/-- With no objects, the first loop iteration decides Success. -/
theorem convergenceLoop_empty (stepFn : List Body → List Body) (n : ℕ)
    (s : Stage) (hobj : s.objects = []) :
    convergenceLoop stepFn (n + 1) s = (.Success, convergenceStep stepFn s) := by
  have he : (convergenceStep stepFn s).objects = [] := by
    simp [convergenceStep, hobj]
  have hf : ¬ anyFallen (convergenceStep stepFn s) := by simp [anyFallen, he]
  have hs : allSleeping (convergenceStep stepFn s) := by simp [allSleeping, he]
  simp [convergenceLoop, hf, hs]

theorem continue_until_convergence_empty (stepFn : List Body → List Body)
    (s : Stage) (hobj : s.objects = []) :
    s.continue_until_convergence stepFn 60 = (.Success, convergenceStep stepFn s) := by
  unfold Stage.continue_until_convergence
  rw [timeoutFrame_60]
  exact convergenceLoop_empty stepFn 3599 s hobj

theorem next_turn_eq (s : Stage) (stepFn : List Body → List Body) (pick : ℕ)
    (render : Stage → Except Unit (List ℕ)) (uid : Option String)
    (tx rot : ℝ) :
    s.next_turn stepFn pick render uid tx rot =
      match render (nextTurnState s stepFn pick uid tx rot) with
      | .ok d =>
        (.ok ((nextTurnResultState s stepFn uid tx rot).1,
          (nextTurnResultState s stepFn uid tx rot).2.get_stage_height, d),
          nextTurnState s stepFn pick uid tx rot)
      | .error e => (.error e, nextTurnState s stepFn pick uid tx rot) := rfl

theorem bootstrapState_objects (shapes : List (List (ℝ × ℝ)))
    (stepFn : List Body → List Body) (pick : ℕ) :
    (bootstrapState shapes stepFn pick).objects =
      [bootstrapPending shapes stepFn pick] := rfl

theorem to_radians_zero : to_radians 0 = 0 := by simp [to_radians]

theorem bootstrap_result_state (shapes : List (List (ℝ × ℝ)))
    (stepFn : List Body → List Body) :
    nextTurnResultState (Stage.new shapes) stepFn none 0 0 =
      (.Success, convergenceStep stepFn (Stage.new shapes)) := by
  unfold nextTurnResultState
  exact continue_until_convergence_empty stepFn _ rfl

theorem bootstrap_state_eq (shapes : List (List (ℝ × ℝ)))
    (stepFn : List Body → List Body) (pick : ℕ) :
    nextTurnState (Stage.new shapes) stepFn pick none 0 0 =
      bootstrapState shapes stepFn pick := by
  unfold nextTurnState
  rw [bootstrap_result_state]
  rfl

theorem bootstrap_height (shapes : List (List (ℝ × ℝ)))
    (stepFn : List Body → List Body) :
    (nextTurnResultState (Stage.new shapes) stepFn none 0 0).2.get_stage_height
      = 0 := by
  rw [bootstrap_result_state]
  show (420 - (convergenceStep stepFn (Stage.new shapes)).get_stage_top) *
    (convergenceStep stepFn (Stage.new shapes)).world_scale = 0
  have h : (convergenceStep stepFn (Stage.new shapes)).get_stage_top = 420 := rfl
  rw [h]
  ring

theorem next_turn_bootstrap (shapes : List (List (ℝ × ℝ)))
    (stepFn : List Body → List Body) (pick : ℕ)
    (render : Stage → Except Unit (List ℕ)) :
    (Stage.new shapes).next_turn stepFn pick render none 0 0 =
      match render (bootstrapState shapes stepFn pick) with
      | .ok d => (.ok (.Success, 0, d), bootstrapState shapes stepFn pick)
      | .error e => (.error e, bootstrapState shapes stepFn pick) := by
  rw [next_turn_eq, bootstrap_state_eq]
  rw [show (nextTurnResultState (Stage.new shapes) stepFn none 0 0).1 = .Success by
    rw [bootstrap_result_state]]
  rw [bootstrap_height]

/-- With a valid pick from a catalog of nonempty shapes, the pending
object of the bootstrap state sits above the ground line. -/
theorem bootstrapPending_top_lt (shapes : List (List (ℝ × ℝ)))
    (stepFn : List Body → List Body) (pick : ℕ)
    (hpick : pick < shapes.length) (hshapes : ∀ sh ∈ shapes, sh ≠ []) :
    (bootstrapPending shapes stepFn pick).get_top < 420 := by
  have hmem : shapes.getD pick [] ∈ shapes := by
    rw [List.getD_eq_getElem shapes [] hpick]
    exact List.getElem_mem hpick
  obtain ⟨v, hv⟩ := List.exists_mem_of_ne_nil _ (hshapes _ hmem)
  have htop := get_top_le_vertex (bootstrapPending shapes stepFn pick)
    (by simp [bootstrapPending, to_radians_zero]) v
    (by simpa [bootstrapPending] using hv)
  have hrad := get_radius_ge_abs_y
    (Object.mk none (shapes.getD pick []) (0, 0) 0 (stepFn []).length) v hv
  have htr : (bootstrapPending shapes stepFn pick).translation.2 =
      420 - (Object.mk none (shapes.getD pick []) (0, 0) 0
        (stepFn []).length).get_radius - 50 := rfl
  have habs : v.2 ≤ |v.2| := le_abs_self v.2
  rw [htr] at htop
  linarith

theorem bootstrapPending_diamond_top :
    (bootstrapPending [diamond] stepNil 0).get_top = 360 := by
  have hrad : (Object.mk none ([diamond].getD 0 []) (0, 0) 0
      (stepNil []).length).get_radius = 5 :=
    get_radius_diamond (Object.mk none ([diamond].getD 0 []) (0, 0) 0
      (stepNil []).length) rfl
  have htr2 : (bootstrapPending [diamond] stepNil 0).translation.2 = 365 := by
    show (420 : ℝ) - (Object.mk none ([diamond].getD 0 []) (0, 0) 0
      (stepNil []).length).get_radius - 50 = 365
    rw [hrad]; norm_num
  rw [get_top_diamond (bootstrapPending [diamond] stepNil 0) rfl to_radians_zero
    (by rw [htr2]; norm_num), htr2]
  norm_num

theorem bootstrapState_diamond_height :
    (bootstrapState [diamond] stepNil 0).get_stage_height = 3 / 5 := by
  have hst : (bootstrapState [diamond] stepNil 0).get_stage_top = 360 := by
    unfold Stage.get_stage_top
    rw [bootstrapState_objects]
    simp only [List.foldl_cons, List.foldl_nil]
    rw [bootstrapPending_diamond_top]
    rw [if_pos (by norm_num : (360 : ℝ) < 420)]
  unfold Stage.get_stage_height
  rw [hst]
  show ((420 : ℝ) - 360) * 0.01 = 3 / 5
  norm_num

/-- C5 counterexample: on the concrete bootstrap run the call returns
stack_height 0, while the height formula evaluated over all objects
including the newly appended pending one gives 3/5 — so the score is not
computed after the append. -/
theorem spec_c5_counterexample :
    ((Stage.new [diamond]).next_turn stepNil 0 renderOkNil
        none 0 0).1 = .ok (.Success, 0, []) ∧
    ((Stage.new [diamond]).next_turn stepNil 0 renderOkNil
        none 0 0).2.get_stage_height = 3 / 5 ∧
    (0 : ℝ) ≠ 3 / 5 := by
  have hb := next_turn_bootstrap [diamond] stepNil 0 renderOkNil
  refine ⟨?_, ?_, by norm_num⟩
  · rw [hb]; rfl
  · rw [hb]
    show (bootstrapState [diamond] stepNil 0).get_stage_height = 3 / 5
    exact bootstrapState_diamond_height

/-- C5 amended: within a `next_turn` call the returned `stack_height` is
computed from the converged state *before* the Success bookkeeping appends
the new pending object, so it excludes that object; the append happens
afterwards, on the state the call returns. -/
theorem spec_c5_score_before_append (s : Stage)
    (stepFn : List Body → List Body) (pick : ℕ)
    (render : Stage → Except Unit (List ℕ)) (uid : Option String)
    (tx rot : ℝ) (tr : TurnResult) (h : ℝ) (d : List ℕ) :
    (s.next_turn stepFn pick render uid tx rot).1 = .ok (tr, h, d) →
      h = (nextTurnResultState s stepFn uid tx rot).2.get_stage_height ∧
      (s.next_turn stepFn pick render uid tx rot).2 =
        nextTurnState s stepFn pick uid tx rot := by
  intro hok
  constructor
  · rw [next_turn_eq] at hok
    cases hr : render (nextTurnState s stepFn pick uid tx rot) with
    | ok dd =>
      rw [hr] at hok
      simp only [Except.ok.injEq, Prod.mk.injEq] at hok
      exact hok.2.1.symm
    | error e => rw [hr] at hok; simp at hok
  · rw [next_turn_eq]
    cases hr : render (nextTurnState s stepFn pick uid tx rot) <;> rfl

/-- Witness for the amended C5 at the concrete bootstrap run. -/
theorem spec_c5_score_before_append_witness :
    (0 : ℝ) =
      (nextTurnResultState (Stage.new [diamond]) stepNil none 0 0).2.get_stage_height :=
  (spec_c5_score_before_append (Stage.new [diamond]) stepNil 0
    renderOkNil none 0 0 .Success 0 []
    (by rw [next_turn_bootstrap [diamond] stepNil 0 renderOkNil]; rfl)).1

/-- C6: on a fresh stage with a catalog of nonempty shapes and a valid
pick, `next_turn(None, 0, 0)` never reports Failure or Timeout: any
reported outcome is Success with stack_height 0, and the stage is left
with exactly one pending object whose top sits above the 420 px ground
line. -/
theorem spec_c6_bootstrap_success (shapes : List (List (ℝ × ℝ)))
    (stepFn : List Body → List Body) (pick : ℕ)
    (render : Stage → Except Unit (List ℕ))
    (hpick : pick < shapes.length) (hshapes : ∀ sh ∈ shapes, sh ≠ []) :
    (∀ tr h d,
      ((Stage.new shapes).next_turn stepFn pick render none 0 0).1 =
          .ok (tr, h, d) →
        tr = .Success ∧ h = 0) ∧
    ((Stage.new shapes).next_turn stepFn pick render none 0 0).2.objects.length
      = 1 ∧
    (∀ o ∈ ((Stage.new shapes).next_turn stepFn pick render none 0 0).2.objects,
      o.get_top < 420) := by
  have hb := next_turn_bootstrap shapes stepFn pick render
  refine ⟨?_, ?_, ?_⟩
  · intro tr h d hok
    rw [hb] at hok
    cases hr : render (bootstrapState shapes stepFn pick) with
    | ok dd =>
      rw [hr] at hok
      simp only [Except.ok.injEq, Prod.mk.injEq] at hok
      exact ⟨hok.1.symm, hok.2.1.symm⟩
    | error e => rw [hr] at hok; simp at hok
  · rw [hb]
    cases hr : render (bootstrapState shapes stepFn pick) <;>
      simp [bootstrapState_objects]
  · intro o ho
    rw [hb] at ho
    cases hr : render (bootstrapState shapes stepFn pick) <;>
      · rw [hr] at ho
        simp only [bootstrapState_objects, List.mem_singleton] at ho
        subst ho
        exact bootstrapPending_top_lt shapes stepFn pick hpick hshapes

/-- Witness for C6 at the concrete diamond catalog. -/
theorem spec_c6_bootstrap_success_witness :
    ((Stage.new [diamond]).next_turn stepNil 0 renderOkNil
        none 0 0).2.objects.length = 1 := by
  have h := spec_c6_bootstrap_success [diamond] stepNil 0 renderOkNil
    (by norm_num)
    (by intro sh hsh; simp only [List.mem_singleton] at hsh; subst hsh; simp [diamond])
  exact h.2.1

/-- C7 counterexample: on the concrete bootstrap run with a failing
renderer, `next_turn` returns an error yet the stage has gained an object
(0 before, 1 after) — the state is not left as it was before the turn. -/
theorem spec_c7_counterexample :
    ((Stage.new [diamond]).next_turn stepNil 0 renderFail
        none 0 0).1 = .error () ∧
    ((Stage.new [diamond]).next_turn stepNil 0 renderFail
        none 0 0).2.objects.length = 1 ∧
    (Stage.new [diamond]).objects.length = 0 := by
  have hb := next_turn_bootstrap [diamond] stepNil 0 renderFail
  refine ⟨?_, ?_, rfl⟩
  · rw [hb]; rfl
  · rw [hb]
    show (bootstrapState [diamond] stepNil 0).objects.length = 1
    rw [bootstrapState_objects]
    rfl

/-- C7 amended: a render failure fails the whole turn (the call returns
the error, reporting no TurnOutcome), but the Stage keeps every mutation
made before rendering — the returned stage is exactly the fully mutated
`nextTurnState`, identical to the one a successful render would leave. -/
theorem spec_c7_render_failure (s : Stage) (stepFn : List Body → List Body)
    (pick : ℕ) (r1 r2 : Stage → Except Unit (List ℕ)) (uid : Option String)
    (tx rot : ℝ) :
    (s.next_turn stepFn pick r1 uid tx rot).2 =
      nextTurnState s stepFn pick uid tx rot ∧
    (s.next_turn stepFn pick r1 uid tx rot).2 =
      (s.next_turn stepFn pick r2 uid tx rot).2 ∧
    (∀ e, r1 (nextTurnState s stepFn pick uid tx rot) = .error e →
      (s.next_turn stepFn pick r1 uid tx rot).1 = .error e) := by
  refine ⟨?_, ?_, ?_⟩
  · rw [next_turn_eq]
    cases hr : r1 (nextTurnState s stepFn pick uid tx rot) <;> rfl
  · rw [next_turn_eq, next_turn_eq]
    cases hr1 : r1 (nextTurnState s stepFn pick uid tx rot) <;>
      cases hr2 : r2 (nextTurnState s stepFn pick uid tx rot) <;> rfl
  · intro e he
    rw [next_turn_eq, he]

/-- Witness for the amended C7 at the concrete always-failing renderer. -/
theorem spec_c7_render_failure_witness :
    ((Stage.new [diamond]).next_turn stepNil 0 renderFail
        none 0 0).1 = .error () :=
  (spec_c7_render_failure (Stage.new [diamond]) stepNil 0
    renderFail renderOkNil none 0 0).2.2 () rfl

/-- C3: whenever a pending (last) object exists, `reset_last_object` maps
the input offset from [-1,1] linearly onto [0,640] px for the object's
horizontal position, converts the rotation to radians, records the owner,
and teleports the object's body to the absolute transform given by the
pixel values times `world_scale` (leaving the vertical position as it
was). -/
theorem spec_c3_reset_last_object (s : Stage) (uid : Option String)
    (tx rot : ℝ) (l : List Object) (o : Object)
    (hobj : s.objects = l ++ [o]) :
    (s.reset_last_object uid tx rot).objects =
      l ++ [{ o with
        user_id := uid
        translation := ((tx + 1) * 0.5 * 640, o.translation.2)
        rotation := to_radians rot }] ∧
    (s.reset_last_object uid tx rot).bodies =
      s.bodies.set o.rigid_body_handle
        { px := (tx + 1) * 0.5 * 640 * s.world_scale
          py := o.translation.2 * s.world_scale
          rotRe := Real.cos (to_radians rot)
          rotIm := Real.sin (to_radians rot)
          sleeping := false } ∧
    ((tx + 1) * 0.5 * 640 : ℝ) = (tx + 1) / 2 * 640 := by
  unfold Stage.reset_last_object
  rw [hobj, List.getLast?_concat, List.dropLast_concat]
  refine ⟨rfl, ?_, by ring⟩
  norm_num

/-- Witness for C3 at a concrete one-object stage. -/
theorem spec_c3_reset_last_object_witness :
    (stageW.reset_last_object (some "u1") 0 90).objects =
      [{ objW with
          user_id := some "u1"
          translation := ((0 + 1) * 0.5 * 640, objW.translation.2)
          rotation := to_radians 90 }] := by
  have h := spec_c3_reset_last_object stageW (some "u1") 0 90 [] objW rfl
  simpa using h.1

/-- C4: `add_object` with oracle index `pick` (the model of the uniform
`gen_range(0..shapes.len())` draw) appends exactly one pending object: it
is unowned, has zero rotation, carries catalog shape `pick`, is centered
horizontally at 320 px and sits above the pre-append stage top by its own
bounding radius plus the 50 px clearance, and its body is teleported to
that transform (pixels times `world_scale`) before the call returns. -/
theorem spec_c4_add_object (s : Stage) (pick : ℕ)
    (hpick : pick < s.shapes.length) :
    (s.add_object pick).objects = s.objects ++ [addedObject s pick] ∧
    (addedObject s pick).user_id = none ∧
    (addedObject s pick).rotation = 0 ∧
    (addedObject s pick).shape = s.shapes[pick] ∧
    (addedObject s pick).translation.1 = 320 ∧
    (addedObject s pick).translation.2 =
      s.get_stage_top -
        (Object.mk none (s.shapes.getD pick []) (0, 0) 0 s.bodies.length).get_radius
        - 50 ∧
    (s.add_object pick).bodies =
      (s.bodies ++ [freshBody]).set s.bodies.length (addedBody s pick) ∧
    (addedBody s pick).px = (addedObject s pick).translation.1 * s.world_scale ∧
    (addedBody s pick).py = (addedObject s pick).translation.2 * s.world_scale := by
  refine ⟨?_, rfl, to_radians_zero, ?_, by norm_num [addedObject], rfl, ?_, rfl, rfl⟩
  · simp only [Stage.add_object, Stage.reset_last_object, List.getLast?_concat,
      List.dropLast_concat]
    rfl
  · show (addedObject s pick).shape = _
    rw [show (addedObject s pick).shape = s.shapes.getD pick [] from rfl]
    exact List.getD_eq_getElem s.shapes [] hpick
  · simp only [Stage.add_object, Stage.reset_last_object, List.getLast?_concat,
      List.dropLast_concat]
    rfl

/-- Witness for C4 at a concrete one-object stage with the diamond
catalog. -/
theorem spec_c4_add_object_witness :
    (stageW.add_object 0).objects = stageW.objects ++ [addedObject stageW 0] ∧
    (addedObject stageW 0).rotation = 0 :=
  ⟨(spec_c4_add_object stageW 0 (by simp [stageW])).1,
    (spec_c4_add_object stageW 0 (by simp [stageW])).2.2.1⟩

/-! ### Branch lemmas for `compute_turn` -/

theorem compute_turn_not_mention (shapes : List (List (ℝ × ℝ)))
    (o : TurnOracles) (msg : Message) (cs : ChannelStage)
    (h : msg.event_type ≠ "app_mention") :
    compute_turn shapes o msg cs = ⟨cs, [], false, .ok ()⟩ := by
  unfold compute_turn
  rw [if_pos h]

theorem compute_turn_contention (shapes : List (List (ℝ × ℝ)))
    (o : TurnOracles) (msg : Message) (cs : ChannelStage)
    (hev : msg.event_type = "app_mention") (hlock : o.tryLock = false) :
    compute_turn shapes o msg cs =
      if o.postOk then
        ⟨cs, [.message msg.channel_id (contentionText msg.user_id)],
          false, .ok ()⟩
      else ⟨cs, [], false, .error ()⟩ := by
  unfold compute_turn
  rw [if_neg (by simp [hev]), if_neg (by simp [hlock])]

theorem compute_turn_some (shapes : List (List (ℝ × ℝ))) (o : TurnOracles)
    (msg : Message) (cs : ChannelStage) (st : Stage)
    (hev : msg.event_type = "app_mention") (hlock : o.tryLock = true)
    (hstage : cs.stage = some st) :
    compute_turn shapes o msg cs = stagePath o msg cs st := by
  unfold compute_turn
  rw [if_neg (by simp [hev]), if_pos hlock, hstage]

theorem compute_turn_none (shapes : List (List (ℝ × ℝ))) (o : TurnOracles)
    (msg : Message) (cs : ChannelStage)
    (hev : msg.event_type = "app_mention") (hlock : o.tryLock = true)
    (hstage : cs.stage = none) :
    compute_turn shapes o msg cs = noStagePath shapes o msg cs := by
  unfold compute_turn
  rw [if_neg (by simp [hev]), if_pos hlock, hstage]

theorem stagePath_icon_ok (o : TurnOracles) (msg : Message)
    (cs : ChannelStage) (st st' : Stage)
    (hicon : iconStep o msg st = .ok st') :
    stagePath o msg cs st = parsePath o msg cs st' := by
  unfold stagePath
  rw [hicon]

theorem parsePath_arity (o : TurnOracles) (msg : Message) (cs : ChannelStage)
    (st : Stage)
    (hlen : (splitWhitespaceR (stripMention msg.text)).length ≠ 2) :
    parsePath o msg cs st = invalidEffects o msg cs st := by
  unfold parsePath
  rw [if_pos hlen]

theorem parsePath_badnum (o : TurnOracles) (msg : Message) (cs : ChannelStage)
    (st : Stage)
    (hbad :
      o.parseF (trimR ((splitWhitespaceR (stripMention msg.text)).getD 0 "")) = none ∨
      o.parseF (trimR ((splitWhitespaceR (stripMention msg.text)).getD 1 "")) = none) :
    parsePath o msg cs st = invalidEffects o msg cs st := by
  unfold parsePath
  by_cases hlen : (splitWhitespaceR (stripMention msg.text)).length ≠ 2
  · rw [if_pos hlen]
  · rw [if_neg hlen]
    rcases hbad with h | h
    · rw [h]
    · cases h0 : o.parseF
        (trimR ((splitWhitespaceR (stripMention msg.text)).getD 0 "")) with
      | none => rfl
      | some tx => rw [h]

theorem parsePath_run (o : TurnOracles) (msg : Message) (cs : ChannelStage)
    (st : Stage) (tx rot : ℝ)
    (hlen : (splitWhitespaceR (stripMention msg.text)).length = 2)
    (hp0 : o.parseF (trimR ((splitWhitespaceR (stripMention msg.text)).getD 0 ""))
      = some tx)
    (hp1 : o.parseF (trimR ((splitWhitespaceR (stripMention msg.text)).getD 1 ""))
      = some rot) :
    parsePath o msg cs st = runPath o msg cs st tx rot := by
  unfold parsePath
  rw [if_neg (by simp [hlen]), hp0, hp1]

theorem iconStep_fields (o : TurnOracles) (msg : Message) (st st' : Stage)
    (h : iconStep o msg st = .ok st') :
    st'.objects = st.objects ∧ st'.bodies = st.bodies ∧
    st'.world_scale = st.world_scale ∧ st'.shapes = st.shapes ∧
    (st'.user_icons = st.user_icons ∨
      ∃ icon, st'.user_icons = st.user_icons ++ [(msg.user_id, icon)]) := by
  unfold iconStep at h
  by_cases hc : st.user_icons.any (fun p => p.1 = msg.user_id)
  · rw [if_pos hc] at h
    injection h with h
    subst h
    exact ⟨rfl, rfl, rfl, rfl, .inl rfl⟩
  · rw [if_neg hc] at h
    cases hf : o.iconFetch with
    | error e => rw [hf] at h; cases h
    | ok oi =>
      rw [hf] at h
      cases oi with
      | none =>
        injection h with h
        subst h
        exact ⟨rfl, rfl, rfl, rfl, .inl rfl⟩
      | some icon =>
        injection h with h
        subst h
        exact ⟨rfl, rfl, rfl, rfl, .inr ⟨icon, rfl⟩⟩

/-! ### Fixtures for the session-layer claims -/

theorem compute_turn_boot_run :
    compute_turn [diamond] oracleBoot msgAbc csNone =
      ⟨⟨1, "c1", some (bootstrapState [diamond] stepNil 0)⟩,
        [.welcomeImage "c1"], true, .ok ()⟩ := by
  rw [compute_turn_none [diamond] oracleBoot msgAbc csNone rfl rfl rfl]
  simp only [noStagePath, oracleBoot]
  rw [next_turn_bootstrap [diamond] stepNil 0 renderOkNil]
  simp [renderOkNil, csNone, msgAbc]

theorem compute_turn_invalid_run :
    compute_turn [diamond] oracleIcon msgAbc csW =
      ⟨⟨0, "c1", some stageWicons⟩, [.message "c1" invalidText],
        false, .ok ()⟩ := by
  rw [compute_turn_some [diamond] oracleIcon msgAbc csW stageW rfl rfl rfl,
    stagePath_icon_ok oracleIcon msgAbc csW stageW stageWicons rfl,
    parsePath_arity oracleIcon msgAbc csW stageWicons (by decide)]
  simp [invalidEffects, oracleIcon, csW, msgAbc]

/-- C8 counterexample: two concrete malformed-text requests.  On a session
with no stage, the text "abc" is never parsed — a bootstrap simulation
runs and the session gains a stage.  On a session with a stage and an
unseen requester, the invalid-input reply is posted but the session state
has still changed: the requester's icon was registered before parsing. -/
theorem spec_c8_counterexample :
    ((compute_turn [diamond] oracleBoot msgAbc csNone).simulated = true ∧
      (compute_turn [diamond] oracleBoot msgAbc csNone).state.stage ≠ none) ∧
    ((compute_turn [diamond] oracleIcon msgAbc csW).simulated = false ∧
      (compute_turn [diamond] oracleIcon msgAbc csW).state.stage =
        some stageWicons ∧
      stageWicons.user_icons ≠ stageW.user_icons) := by
  refine ⟨⟨?_, ?_⟩, ?_, ?_, ?_⟩
  · rw [compute_turn_boot_run]
  · rw [compute_turn_boot_run]
    simp
  · rw [compute_turn_invalid_run]
  · rw [compute_turn_invalid_run]
  · simp [stageWicons, stageW]

/-- C8 amended: when the session holds a Stage and the (mention-stripped)
text does not parse as exactly two numeric tokens, the requester gets the
invalid-input reply, no simulation runs, and neither the stage's
objects/bodies nor the activity time change — but the requester's icon
may have been registered before parsing.  When the session holds no
Stage, the text is not parsed at all: a bootstrap simulation runs. -/
theorem spec_c8_invalid_input (shapes : List (List (ℝ × ℝ)))
    (o : TurnOracles) (msg : Message) (cs : ChannelStage) (st st' : Stage)
    (hev : msg.event_type = "app_mention") (hlock : o.tryLock = true)
    (hstage : cs.stage = some st) (hicon : iconStep o msg st = .ok st')
    (hbad : (splitWhitespaceR (stripMention msg.text)).length ≠ 2 ∨
      o.parseF (trimR ((splitWhitespaceR (stripMention msg.text)).getD 0 "")) = none ∨
      o.parseF (trimR ((splitWhitespaceR (stripMention msg.text)).getD 1 "")) = none) :
    compute_turn shapes o msg cs = invalidEffects o msg cs st' ∧
    (compute_turn shapes o msg cs).simulated = false ∧
    (o.postOk = true →
      (compute_turn shapes o msg cs).posts =
        [.message msg.channel_id invalidText]) ∧
    (compute_turn shapes o msg cs).state.update_time = cs.update_time ∧
    (compute_turn shapes o msg cs).state.stage = some st' ∧
    st'.objects = st.objects ∧ st'.bodies = st.bodies ∧
    (st'.user_icons = st.user_icons ∨
      ∃ icon, st'.user_icons = st.user_icons ++ [(msg.user_id, icon)]) ∧
    (∀ cs2 : ChannelStage, cs2.stage = none →
      compute_turn shapes o msg cs2 = noStagePath shapes o msg cs2 ∧
      (noStagePath shapes o msg cs2).simulated = true) := by
  have he : compute_turn shapes o msg cs = invalidEffects o msg cs st' := by
    rw [compute_turn_some shapes o msg cs st hev hlock hstage,
      stagePath_icon_ok o msg cs st st' hicon]
    rcases hbad with h | h
    · exact parsePath_arity o msg cs st' h
    · exact parsePath_badnum o msg cs st' h
  have hif := iconStep_fields o msg st st' hicon
  refine ⟨he, ?_, ?_, ?_, ?_, hif.1, hif.2.1, hif.2.2.2.2, ?_⟩
  · rw [he]
    unfold invalidEffects
    by_cases hp : o.postOk <;> simp [hp]
  · intro hp
    rw [he]
    unfold invalidEffects
    rw [if_pos hp]
  · rw [he]
    unfold invalidEffects
    by_cases hp : o.postOk <;> simp [hp]
  · rw [he]
    unfold invalidEffects
    by_cases hp : o.postOk <;> simp [hp]
  · intro cs2 h2
    refine ⟨compute_turn_none shapes o msg cs2 hev hlock h2, ?_⟩
    unfold noStagePath
    cases hr : ((Stage.new shapes).next_turn o.stepFn o.pick o.render none 0 0).1
    · rfl
    · by_cases hp : o.postOk <;> simp [hp]

/-- Witness for the amended C8: two unparsable tokens on a session with a
stage and a known flow produce exactly the invalid-input effects. -/
theorem spec_c8_invalid_input_witness :
    compute_turn [diamond] oracleBoot msgXY csW =
      invalidEffects oracleBoot msgXY csW stageW :=
  (spec_c8_invalid_input [diamond] oracleBoot msgXY csW stageW stageW
    rfl rfl rfl rfl (Or.inr (Or.inl rfl))).1

/-! ### A concrete turn that resolves to Failure -/

theorem convergenceLoop_fall (stepFn : List Body → List Body) (n : ℕ)
    (s : Stage) (hfall : anyFallen (convergenceStep stepFn s)) :
    convergenceLoop stepFn (n + 1) s = (.Failure, convergenceStep stepFn s) := by
  simp [convergenceLoop, hfall]

theorem stepFnFall_step (s : Stage) (o : Object) (hws : s.world_scale = 0.01)
    (hobj : s.objects = [o]) (hsh : o.shape = diamond)
    (hh : o.rigid_body_handle = 0) :
    anyFallen (convergenceStep stepFnFall s) ∧
    allSleeping (convergenceStep stepFnFall s) ∧
    (convergenceStep stepFnFall s).get_stage_height = 0 := by
  have hobjs : (convergenceStep stepFnFall s).objects = [fallenObject s o] := by
    simp [convergenceStep, hobj, hh, stepFnFall, fallenObject]
  have htop : (fallenObject s o).get_top = 435 := by
    rw [get_top_diamond (fallenObject s o) hsh atan2_zero_one
      (by show (4.4 / s.world_scale : ℝ) < 1000000; rw [hws]; norm_num)]
    show (4.4 / s.world_scale : ℝ) - 5 = 435
    rw [hws]; norm_num
  have hws2 : (convergenceStep stepFnFall s).world_scale = 0.01 := by
    show s.world_scale = 0.01
    exact hws
  refine ⟨?_, ?_, ?_⟩
  · refine ⟨fallenObject s o, ?_, ?_⟩
    · rw [hobjs]; exact List.mem_singleton.mpr rfl
    · rw [htop, hws2]
      norm_num
  · intro o2 ho2
    rw [hobjs] at ho2
    simp only [List.mem_singleton] at ho2
    subst ho2
    have hb : (convergenceStep stepFnFall s).bodies = [⟨3.2, 4.4, 1, 0, true⟩] := rfl
    rw [hb, show (fallenObject s o).rigid_body_handle = 0 from hh]
    rfl
  · unfold Stage.get_stage_height Stage.get_stage_top
    rw [hobjs]
    simp only [List.foldl_cons, List.foldl_nil]
    rw [htop, if_neg (by norm_num : ¬ ((420 : ℝ) > 435))]
    simp

theorem next_turn_fall_result :
    nextTurnResultState stageWicons stepFnFall (some "u1") 0 0 =
      (.Failure,
        convergenceStep stepFnFall
          (stageWicons.reset_last_object (some "u1") 0 0)) := by
  unfold nextTurnResultState Stage.continue_until_convergence
  rw [timeoutFrame_60]
  exact convergenceLoop_fall stepFnFall 3599
    (stageWicons.reset_last_object (some "u1") 0 0)
    (stepFnFall_step _ objW2 rfl rfl rfl rfl).1

theorem next_turn_fall_ok :
    (stageWicons.next_turn stepFnFall 0 renderOkNil (some "u1") 0 0).1 =
      .ok (.Failure, 0, []) := by
  rw [next_turn_eq]
  show Except.ok
    ((nextTurnResultState stageWicons stepFnFall (some "u1") 0 0).1,
      (nextTurnResultState stageWicons stepFnFall (some "u1") 0 0).2.get_stage_height,
      ([] : List ℕ)) = .ok (.Failure, 0, [])
  rw [next_turn_fall_result]
  show Except.ok (TurnResult.Failure,
    (convergenceStep stepFnFall
      (stageWicons.reset_last_object (some "u1") 0 0)).get_stage_height,
    ([] : List ℕ)) = .ok (.Failure, 0, [])
  rw [(stepFnFall_step _ objW2 rfl rfl rfl rfl).2.2]

/-- C9: a turn that resolves to Failure or Timeout (with the report
posted) leaves the session's stage cleared to None, and any later
accepted turn on a stage-less session runs the bootstrap: it plays a
brand-new `Stage.new shapes` — which starts with no objects, so none of
the previous game's objects can appear. -/
theorem spec_c9_reset_law (shapes : List (List (ℝ × ℝ))) (o : TurnOracles)
    (msg : Message) (cs : ChannelStage) (st st' : Stage) (tx rot : ℝ)
    (tr : TurnResult) (h : ℝ) (d : List ℕ)
    (hev : msg.event_type = "app_mention") (hlock : o.tryLock = true)
    (hpost : o.postOk = true) (hstage : cs.stage = some st)
    (hicon : iconStep o msg st = .ok st')
    (hlen : (splitWhitespaceR (stripMention msg.text)).length = 2)
    (hp0 : o.parseF (trimR ((splitWhitespaceR (stripMention msg.text)).getD 0 ""))
      = some tx)
    (hp1 : o.parseF (trimR ((splitWhitespaceR (stripMention msg.text)).getD 1 ""))
      = some rot)
    (hok : (st'.next_turn o.stepFn o.pick o.render (some msg.user_id) tx rot).1
      = .ok (tr, h, d))
    (htr : tr ≠ .Success) :
    (compute_turn shapes o msg cs).state.stage = none ∧
    (compute_turn shapes o msg cs).result = .ok () ∧
    (compute_turn shapes o msg cs).posts =
      [.resultImage cs.channel_id msg.user_id tr h] ∧
    (∀ cs2 : ChannelStage, cs2.stage = none →
      (compute_turn shapes o msg cs2).simulated = true ∧
      (∀ tr2 h2 d2,
        ((Stage.new shapes).next_turn o.stepFn o.pick o.render none 0 0).1
          = .ok (tr2, h2, d2) →
        (compute_turn shapes o msg cs2).state.stage =
          some ((Stage.new shapes).next_turn o.stepFn o.pick o.render
            none 0 0).2) ∧
      (Stage.new shapes).objects = []) := by
  have he : compute_turn shapes o msg cs = runPath o msg cs st' tx rot := by
    rw [compute_turn_some shapes o msg cs st hev hlock hstage,
      stagePath_icon_ok o msg cs st st' hicon,
      parsePath_run o msg cs st' tx rot hlen hp0 hp1]
  have hrun : runPath o msg cs st' tx rot =
      ⟨{ cs with stage := none, update_time := o.now },
        [.resultImage cs.channel_id msg.user_id tr h], true, .ok ()⟩ := by
    unfold runPath
    rw [hok]
    simp [hpost, htr]
  refine ⟨?_, ?_, ?_, ?_⟩
  · rw [he, hrun]
  · rw [he, hrun]
  · rw [he, hrun]
  · intro cs2 h2
    have hn := compute_turn_none shapes o msg cs2 hev hlock h2
    refine ⟨?_, ?_, rfl⟩
    · rw [hn]
      unfold noStagePath
      cases hr : ((Stage.new shapes).next_turn o.stepFn o.pick o.render none 0 0).1
      · rfl
      · simp [hpost]
    · intro tr2 h2' d2 hok2
      rw [hn]
      unfold noStagePath
      rw [hok2]
      simp [hpost]

/-- Witness for C9: the concrete dropped-past-the-line turn clears the
session's stage. -/
theorem spec_c9_reset_law_witness :
    (compute_turn [diamond] oracleFall msgZero csIcons).state.stage = none :=
  (spec_c9_reset_law [diamond] oracleFall msgZero csIcons stageWicons
    stageWicons 0 0 .Failure 0 [] rfl rfl rfl rfl rfl (by decide) rfl rfl
    next_turn_fall_ok (by decide)).1

/-! ### C10: interleaving model of the per-session try-lock protocol

Two concurrent `compute_turn` tasks on the same session are modelled as
two attempts, each consisting of the atomic non-blocking `try_lock`
followed (only on success) by the lock-held body and the release.  A
schedule interleaves their atomic actions arbitrarily. -/

theorem sysStep_inv (bodyA bodyB : ChannelStage → ChannelStage × List Post)
    (contA contB : Post) (σ : SysState) (choice : Bool) (hi : sysInv σ) :
    sysInv (sysStep bodyA bodyB contA contB σ choice) := by
  obtain ⟨ha, hb⟩ := hi
  cases choice <;>
    cases hpa : σ.attA.phase <;> cases hpb : σ.attB.phase <;>
      cases hl : σ.locked <;>
        simp_all [sysInv, sysStep, attemptAct]

theorem sysRun_inv (bodyA bodyB : ChannelStage → ChannelStage × List Post)
    (contA contB : Post) :
    ∀ (sched : List Bool) (σ : SysState), sysInv σ →
      sysInv (sysRun bodyA bodyB contA contB sched σ) := by
  intro sched
  induction sched with
  | nil => intro σ h; exact h
  | cons c rest ih =>
    intro σ h
    exact ih _ (sysStep_inv bodyA bodyB contA contB σ c h)

/-- C10: in the interleaving model of the per-session `try_lock`
protocol, two attempts on the same session are never simultaneously
inside the lock-held simulation (under any schedule); an attempt whose
non-blocking acquisition fails finishes immediately, posts only the
contention reply, and leaves the session state and lock untouched, while
an attempt finding the lock free proceeds to hold it; and in
`compute_turn` itself a failed `try_lock` posts the "turn in progress"
reply and changes nothing. -/
theorem spec_c10_single_flight
    (bodyA bodyB : ChannelStage → ChannelStage × List Post)
    (contA contB : Post) :
    (∀ (sched : List Bool) (cs : ChannelStage),
      ¬ ((sysRun bodyA bodyB contA contB sched (sysInit cs)).attA.phase
          = .holding ∧
        (sysRun bodyA bodyB contA contB sched (sysInit cs)).attB.phase
          = .holding)) ∧
    (∀ σ : SysState, σ.locked = true → σ.attA.phase = .start →
      (sysStep bodyA bodyB contA contB σ false).attA.phase = .done ∧
      (sysStep bodyA bodyB contA contB σ false).attA.ranSim = σ.attA.ranSim ∧
      (sysStep bodyA bodyB contA contB σ false).attA.posts = [contA] ∧
      (sysStep bodyA bodyB contA contB σ false).cs = σ.cs ∧
      (sysStep bodyA bodyB contA contB σ false).locked = σ.locked) ∧
    (∀ σ : SysState, σ.locked = true → σ.attB.phase = .start →
      (sysStep bodyA bodyB contA contB σ true).attB.phase = .done ∧
      (sysStep bodyA bodyB contA contB σ true).attB.ranSim = σ.attB.ranSim ∧
      (sysStep bodyA bodyB contA contB σ true).attB.posts = [contB] ∧
      (sysStep bodyA bodyB contA contB σ true).cs = σ.cs ∧
      (sysStep bodyA bodyB contA contB σ true).locked = σ.locked) ∧
    (∀ σ : SysState, σ.locked = false → σ.attA.phase = .start →
      (sysStep bodyA bodyB contA contB σ false).attA.phase = .holding ∧
      (sysStep bodyA bodyB contA contB σ false).locked = true) ∧
    (∀ (shapes : List (List (ℝ × ℝ))) (o : TurnOracles) (msg : Message)
        (cs : ChannelStage),
      msg.event_type = "app_mention" → o.tryLock = false →
      compute_turn shapes o msg cs =
        if o.postOk then
          ⟨cs, [.message msg.channel_id (contentionText msg.user_id)],
            false, .ok ()⟩
        else ⟨cs, [], false, .error ()⟩) := by
  refine ⟨?_, ?_, ?_, ?_, ?_⟩
  · intro sched cs
    have hinv := sysRun_inv bodyA bodyB contA contB sched (sysInit cs)
      (by simp [sysInv, sysInit])
    intro ⟨h1, h2⟩
    exact (hinv.1 h1).2 h2
  · intro σ hl hp
    simp [sysStep, attemptAct, hp, hl]
  · intro σ hl hp
    simp [sysStep, attemptAct, hp, hl]
  · intro σ hl hp
    simp [sysStep, attemptAct, hp, hl]
  · intro shapes o msg cs hev hlock
    exact compute_turn_contention shapes o msg cs hev hlock

/-- Witness for C10: a concrete contended call posts the "turn in
progress" reply and leaves the session untouched. -/
theorem spec_c10_single_flight_witness :
    compute_turn [diamond] oracleLocked msgAbc csW =
      ⟨csW, [.message "c1" (contentionText "u1")], false, .ok ()⟩ := by
  have h := (spec_c10_single_flight (fun c => (c, [])) (fun c => (c, []))
    (.message "x" "y") (.message "x" "y")).2.2.2.2
    [diamond] oracleLocked msgAbc csW rfl rfl
  rw [h]
  simp [oracleLocked, msgAbc]

end TowerBattle
